import Mathlib

/-!
Verification development for the speaker-data standardization pipeline
(`main.py`).  Python functions are shallowly embedded as executable Lean
definitions; dictionaries become association lists or structures, `None`
becomes `Option.none`, exceptions become `Except`, and the similarity
score of `rapidfuzz.fuzz.ratio` is embedded as the exact rational value
of the normalized indel similarity it computes.
-/

/- ────────────────────────────────────────────────────────────────────
   Python string helpers shared by several embedded functions.
   ──────────────────────────────────────────────────────────────────── -/

/-- The characters Python treats as whitespace in `str.strip` and in the
regex class used by `re.sub` on ASCII input: space, tab, newline,
carriage return, vertical tab, form feed. -/
def pyIsSpace (c : Char) : Bool :=
  c = ' ' || c = '\t' || c = '\n' || c = '\r' || c = Char.ofNat 11 || c = Char.ofNat 12

/-- Python `str.strip()`: remove leading and trailing whitespace. -/
def pyStrip (s : String) : String :=
  String.mk (((s.toList.dropWhile pyIsSpace).reverse.dropWhile pyIsSpace).reverse)

/-- Python `str.lower()` on one ASCII character. -/
def pyLowerChar (c : Char) : Char :=
  if 'A' ≤ c && c ≤ 'Z' then Char.ofNat (c.toNat + 32) else c

/-- Python `str.lower()` on ASCII input. -/
def pyLower (s : String) : String :=
  String.mk (s.toList.map pyLowerChar)

/-- Python `str.split(",")`: split on every comma; the empty string
yields one empty part. -/
def splitComma : List Char → List (List Char)
  | [] => [[]]
  | c :: cs =>
    if c = ',' then [] :: splitComma cs
    else
      match splitComma cs with
      | p :: ps => (c :: p) :: ps
      | [] => [[c]]

/-- `re.sub(r"\s+", " ", t)` on a character list: every maximal run of
whitespace characters is replaced by a single space.  The flag records
whether the previous character was part of a whitespace run. -/
def collapseWsAux : Bool → List Char → List Char
  | _, [] => []
  | inRun, c :: cs =>
    if pyIsSpace c then
      if inRun then collapseWsAux true cs else ' ' :: collapseWsAux true cs
    else c :: collapseWsAux false cs

/-- `re.sub(r"\s+", " ", t)` on a character list. -/
def collapseWs (l : List Char) : List Char :=
  collapseWsAux false l

/-- `needle` occurs at the start of the second list. -/
def listStarts : List Char → List Char → Bool
  | [], _ => true
  | _ :: _, [] => false
  | a :: as, b :: bs => a = b && listStarts as bs

/-- Python substring test `needle in hay` on character lists. -/
def subOf (needle : List Char) : List Char → Bool
  | [] => needle.isEmpty
  | c :: cs => listStarts needle (c :: cs) || subOf needle cs

/- ────────────────────────────────────────────────────────────────────
   `sha_id` (main.py lines 80-81): hexadecimal SHA-1 digest of the
   UTF-8 encoding of the input text, embedding `hashlib.sha1(...)
   .hexdigest()`.  All arithmetic is on `Nat` with explicit `% 2^32`.
   ──────────────────────────────────────────────────────────────────── -/

/-- UTF-8 encoding of one code point as a list of byte values. -/
def utf8Bytes (c : Char) : List Nat :=
  let n := c.toNat
  if n < 128 then [n]
  else if n < 2048 then [192 + n / 64, 128 + n % 64]
  else if n < 65536 then [224 + n / 4096, 128 + (n / 64) % 64, 128 + n % 64]
  else [240 + n / 262144, 128 + (n / 4096) % 64, 128 + (n / 64) % 64, 128 + n % 64]

/-- UTF-8 encoding of a string as a list of byte values. -/
def strUtf8 (s : String) : List Nat :=
  (s.toList.map utf8Bytes).flatten

/-- Rotate a 32-bit word left by `n` bits. -/
def rotl32 (n x : Nat) : Nat :=
  (x * 2 ^ n + x / 2 ^ (32 - n)) % 2 ^ 32

/-- SHA-1 round constant for round `t`. -/
def sha1K (t : Nat) : Nat :=
  if t < 20 then 0x5A827999
  else if t < 40 then 0x6ED9EBA1
  else if t < 60 then 0x8F1BBCDC
  else 0xCA62C1D6

/-- SHA-1 round function for round `t`. -/
def sha1F (t b c d : Nat) : Nat :=
  if t < 20 then (b &&& c) ||| ((b ^^^ 0xFFFFFFFF) &&& d)
  else if t < 40 then b ^^^ c ^^^ d
  else if t < 60 then (b &&& c) ||| (b &&& d) ||| (c &&& d)
  else b ^^^ c ^^^ d

/-- Big-endian 8-byte encoding of a length in bits. -/
def be64 (n : Nat) : List Nat :=
  [n / 2 ^ 56 % 256, n / 2 ^ 48 % 256, n / 2 ^ 40 % 256, n / 2 ^ 32 % 256,
   n / 2 ^ 24 % 256, n / 2 ^ 16 % 256, n / 2 ^ 8 % 256, n % 256]

/-- SHA-1 message padding: append `0x80`, zero bytes up to 56 mod 64,
then the 64-bit big-endian bit length of the original message. -/
def sha1Pad (msg : List Nat) : List Nat :=
  let z := (120 - (msg.length + 1) % 64) % 64
  msg ++ [0x80] ++ List.replicate z 0 ++ be64 (8 * msg.length)

/-- Split a byte list into 64-byte blocks. -/
def chunk64 (l : List Nat) : List (List Nat) :=
  if h : l = [] then []
  else l.take 64 :: chunk64 (l.drop 64)
termination_by l.length
decreasing_by
  have h0 : 0 < l.length := List.length_pos.mpr h
  simp only [List.length_drop]
  omega

/-- Big-endian 32-bit words of a 64-byte block. -/
def blockWords (block : List Nat) : Array Nat :=
  (List.range 16).foldl
    (fun ws i =>
      ws.push ((block.getD (4 * i) 0) * 2 ^ 24 + (block.getD (4 * i + 1) 0) * 2 ^ 16 +
               (block.getD (4 * i + 2) 0) * 2 ^ 8 + block.getD (4 * i + 3) 0))
    #[]

/-- Extend the 16 message words of a block to the 80 round words. -/
def sha1Extend (ws : Array Nat) : Array Nat :=
  (List.range 64).foldl
    (fun a j =>
      a.push (rotl32 1 ((a.getD (j + 13) 0) ^^^ (a.getD (j + 8) 0) ^^^
                        (a.getD (j + 2) 0) ^^^ a.getD j 0)))
    ws

/-- One SHA-1 compression step over a 64-byte block. -/
def sha1Block (h : Nat × Nat × Nat × Nat × Nat) (block : List Nat) :
    Nat × Nat × Nat × Nat × Nat :=
  let ws := sha1Extend (blockWords block)
  let r := (List.range 80).foldl
    (fun st t =>
      let a := st.1
      let b := st.2.1
      let c := st.2.2.1
      let d := st.2.2.2.1
      let e := st.2.2.2.2
      ((rotl32 5 a + sha1F t b c d + e + sha1K t + ws.getD t 0) % 2 ^ 32,
       a, rotl32 30 b, c, d))
    h
  ((h.1 + r.1) % 2 ^ 32, (h.2.1 + r.2.1) % 2 ^ 32, (h.2.2.1 + r.2.2.1) % 2 ^ 32,
   (h.2.2.2.1 + r.2.2.2.1) % 2 ^ 32, (h.2.2.2.2 + r.2.2.2.2) % 2 ^ 32)

/-- Lowercase hexadecimal digit. -/
def hexChar (n : Nat) : Char :=
  if n < 10 then Char.ofNat (48 + n) else Char.ofNat (87 + n)

/-- Eight lowercase hex digits of a 32-bit word, most significant first. -/
def wordHex (w : Nat) : List Char :=
  (List.range 8).map (fun i => hexChar (w / 2 ^ (4 * (7 - i)) % 16))

/-- `sha_id(text)`: lowercase hex SHA-1 digest of the UTF-8 bytes of
`text` (main.py lines 80-81). -/
def sha_id (text : String) : String :=
  let blocks := chunk64 (sha1Pad (strUtf8 text))
  let h := blocks.foldl sha1Block
    (0x67452301, 0xEFCDAB89, 0x98BADCFE, 0x10325476, 0xC3D2E1F0)
  String.mk (wordHex h.1 ++ wordHex h.2.1 ++ wordHex h.2.2.1 ++
             wordHex h.2.2.2.1 ++ wordHex h.2.2.2.2)

/- ────────────────────────────────────────────────────────────────────
   `fingerprint_name` (main.py lines 397-398).
   ──────────────────────────────────────────────────────────────────── -/

/-- `re.sub(r"[^a-z]", "", name.lower())` when `name` is truthy, else
the empty string; a missing (`None`) name also yields `""`. -/
def fingerprint_name (name : Option String) : String :=
  match name with
  | none => ""
  | some s => String.mk ((pyLower s).toList.filter (fun c => 'a' ≤ c && c ≤ 'z'))

/- ────────────────────────────────────────────────────────────────────
   `parse_location` (main.py lines 83-109), free-text and empty cases.
   The caller passes either `None` or a string; the dict pass-through
   branch (used only by the BigSpeak transformer, which feeds it a
   nested dict) is outside every claim and is not embedded.
   ──────────────────────────────────────────────────────────────────── -/

/-- The canonical location structure returned for free-text input.
`Option.none` on a field embeds Python `None`. -/
structure LocationS where
  city : Option String
  state : Option String
  country : Option String
  full_location : String
deriving DecidableEq

/-- `[p.strip() for p in loc.split(",")]`. -/
def pySplitStrip (loc : String) : List String :=
  (splitComma loc.toList).map (fun p => pyStrip (String.mk p))

/-- `parse_location`: falsy input (absent or empty string) yields the
empty dict, embedded as `none`; otherwise split on commas, strip each
part, and assign 3 parts to city/state/country, 2 parts to
city/country, and otherwise take the first part as country. -/
def parse_location : Option String → Option LocationS
  | none => none
  | some loc =>
    if loc = "" then none
    else
      match pySplitStrip loc with
      | [a, b, c] => some ⟨some a, some b, some c, loc⟩
      | [a, b] => some ⟨some a, none, some b, loc⟩
      | other => some ⟨none, none, other.head?, loc⟩

/- ────────────────────────────────────────────────────────────────────
   `norm_topics` (main.py lines 111-121).  The reverse vocabulary map
   `REV_TOPIC_MAP` is data loaded from an external config file, so it
   is a parameter `rm` here.  Python sets are embedded as lists grown
   by insert-if-absent; `sorted` is embedded as insertion sort by the
   lexicographic order on strings, which agrees with Python `sorted`
   on duplicate-free input.
   ──────────────────────────────────────────────────────────────────── -/

/-- `re.sub(r"\s+", " ", t).strip()`. -/
def cleanTopic (t : String) : String :=
  pyStrip (String.mk (collapseWs t.toList))

/-- `set.add`: append the element unless it is already present. -/
def insertSet (l : List String) (x : String) : List String :=
  if x ∈ l then l else l ++ [x]

/-- One iteration of the `norm_topics` loop on the pair of sets. -/
def normStep (rm : String → Option String) (acc : List String × List String)
    (t : String) : List String × List String :=
  let tc := cleanTopic t
  match rm tc with
  | some c => (insertSet acc.1 c, acc.2)
  | none => (insertSet acc.1 tc, insertSet acc.2 tc)

/-- `norm_topics(topics)`: canonical list and unmapped list, each the
sorted image of the corresponding set. -/
def norm_topics (rm : String → Option String) (topics : List String) :
    List String × List String :=
  let p := topics.foldl (normStep rm) ([], [])
  (p.1.insertionSort (· ≤ ·), p.2.insertionSort (· ≤ ·))

/-- The form under which a raw topic lands in the canonical set:
its vocabulary image when mapped, its cleaned form otherwise. -/
def mappedForm (rm : String → Option String) (t : String) : String :=
  match rm (cleanTopic t) with
  | some c => c
  | none => cleanTopic t

/- ────────────────────────────────────────────────────────────────────
   `fuzz.ratio` (rapidfuzz) as called in `find_duplicate` (main.py
   line 413).  rapidfuzz computes the normalized indel similarity
   `100 * 2*lcs(a,b) / (|a|+|b|)` as a float, 100.0 when both strings
   are empty, and scores 0 when an input is `None`.  The exact value
   is embedded in `ℚ`.
   ──────────────────────────────────────────────────────────────────── -/

/-- Length of a longest common subsequence. -/
def lcsLen : List Char → List Char → Nat
  | [], _ => 0
  | _ :: _, [] => 0
  | a :: as, b :: bs =>
    if a = b then 1 + lcsLen as bs
    else max (lcsLen (a :: as) bs) (lcsLen as (b :: bs))
termination_by x y => x.length + y.length
decreasing_by all_goals simp_arith

/-- `fuzz.ratio` on two strings, as an exact rational. -/
def fuzzRatio (a b : String) : ℚ :=
  if a.length + b.length = 0 then 100
  else 100 * (2 * (lcsLen a.toList b.toList : ℚ)) / ((a.length : ℚ) + (b.length : ℚ))

/-- `fuzz.ratio` including the documented `None` handling: a missing
input scores 0. -/
def fuzzRatioOpt : Option String → Option String → ℚ
  | some a, some b => fuzzRatio a b
  | _, _ => 0

/- ────────────────────────────────────────────────────────────────────
   `find_duplicate` (main.py lines 408-419) and the resolution loop of
   `run` (lines 462-481).  A record is reduced to the three fields the
   resolution engine reads: `name`, `location.city`, and `_id`.  The
   identity index (a `defaultdict(list)`) is embedded as a total
   function from fingerprint to candidate list.
   ──────────────────────────────────────────────────────────────────── -/

/-- The slice of a unified record consulted by resolution. -/
structure RRec where
  name : Option String
  city : Option String
  rid : String
deriving DecidableEq

/-- Truthiness test of the city bonus: both cities present and
non-empty, equal after lowercasing. -/
def cityBonus (candCity docCity : Option String) : Bool :=
  match candCity, docCity with
  | some c, some d => !(c = "") && !(d = "") && pyLower c = pyLower d
  | _, _ => false

/-- The candidate scan of `find_duplicate`: first candidate whose
score (self-similarity of the incoming name, plus 10 for a city
match) exceeds 90; the scan short-circuits there. -/
def scanCands (name docCity : Option String) :
    List (String × Option String) → Option String
  | [] => none
  | (cid, ccity) :: rest =>
    let score := fuzzRatioOpt name name + (if cityBonus ccity docCity then 10 else 0)
    if 90 < score then some cid else scanCands name docCity rest

/-- `find_duplicate(unified_doc, index)`. -/
def find_duplicate (r : RRec) (idx : String → List (String × Option String)) :
    Option String :=
  scanCands r.name r.city (idx (fingerprint_name r.name))

/-- The operation emitted for one record by the loop in `run`. -/
inductive ROp where
  | merge (dupId : String) (r : RRec)
  | insertNew (r : RRec)
deriving DecidableEq

/-- In-memory state of the loop: identity index plus emitted ops. -/
structure RunSt where
  idx : String → List (String × Option String)
  ops : List ROp

/-- One iteration of the resolution loop (main.py lines 467-481): a
found duplicate emits a merge; otherwise the record is inserted and
`(id, city)` is appended to the index under the name fingerprint
before any later record is processed. -/
def stepRec (st : RunSt) (r : RRec) : RunSt :=
  match find_duplicate r st.idx with
  | some d => { st with ops := st.ops ++ [ROp.merge d r] }
  | none =>
    let key := fingerprint_name r.name
    { idx := fun k => if k = key then st.idx k ++ [(r.rid, r.city)] else st.idx k,
      ops := st.ops ++ [ROp.insertNew r] }

/-- The resolution loop over a list of records. -/
def runRecs (st : RunSt) (rs : List RRec) : RunSt :=
  rs.foldl stepRec st

/- ────────────────────────────────────────────────────────────────────
   The merge-update document (main.py lines 469-475).  The unified
   record is a Python dict here, embedded as an association list with
   arbitrary value type.
   ──────────────────────────────────────────────────────────────────── -/

/-- Python dict assignment `d[k] = v`: replace the entry in place when
the key is present, append it otherwise. -/
def dictSet (d : List (String × α)) (k : String) (v : α) : List (String × α) :=
  if (d.map Prod.fst).contains k then
    d.map (fun kv => if kv.1 = k then (k, v) else kv)
  else d ++ [(k, v)]

/-- `u_doc["updated_at"] = now` followed by
`{k: v for k, v in u_doc.items() if k != "_id"}`. -/
def mergeUpdateDoc (d : List (String × α)) (now : α) : List (String × α) :=
  (dictSet d "updated_at" now).filter (fun kv => kv.1 != "_id")

/-- The `UpdateOne({"_id": dup_id}, {"$set": update_doc})` operation:
the filter key and the update document. -/
def mergeOp (dupId : String) (d : List (String × α)) (now : α) :
    String × List (String × α) :=
  (dupId, mergeUpdateDoc d now)

/-- Effect of `$set` on the stored document: each update entry is
written into the existing document, other fields untouched. -/
def applySet (old upd : List (String × α)) : List (String × α) :=
  upd.foldl (fun d kv => dictSet d kv.1 kv.2) old

/- ────────────────────────────────────────────────────────────────────
   The batch writer of `run` (main.py lines 433, 483-491): operations
   accumulate in `bulk_ops`; after each append, a buffer of length
   ≥ 1000 is flushed; after the per-source loops, a non-empty
   remainder is flushed once.  There is no per-source flush in the
   code.
   ──────────────────────────────────────────────────────────────────── -/

/-- Append one op to the buffer and flush at the 1000 threshold.
State: current buffer and the list of flushed batches. -/
def pushOp (st : List α × List (List α)) (op : α) : List α × List (List α) :=
  let buf := st.1 ++ [op]
  if 1000 ≤ buf.length then ([], st.2 ++ [buf]) else (buf, st.2)

/-- Final flush of a non-empty remainder (main.py lines 490-491). -/
def finalFlush (st : List α × List (List α)) : List (List α) :=
  if st.1.isEmpty then st.2 else st.2 ++ [st.1]

/-- The batches flushed by `run` given the per-source op streams, as
the code does it: one shared buffer across sources, flush at 1000,
one final remainder flush. -/
def runFlushes (srcs : List (List α)) : List (List α) :=
  finalFlush (srcs.foldl (fun st src => src.foldl pushOp st) ([], []))

/-- Modelled from the spec: the flushing discipline the spec sentence
describes, with an additional flush of any non-empty remainder after
each individual source is exhausted.  Stated only to be compared with
`runFlushes`; it is not what the code does. -/
def runFlushesSpec (srcs : List (List α)) : List (List α) :=
  finalFlush (srcs.foldl
    (fun st src =>
      let st2 := src.foldl pushOp st
      if st2.1.isEmpty then st2 else ([], st2.2 ++ [st2.1]))
    ([], []))

/-- The op stream chunked into full batches of 1000 with a final
partial batch. -/
def chunk1000 : List α → List (List α)
  | [] => []
  | x :: xs => (x :: xs).take 1000 :: chunk1000 ((x :: xs).drop 1000)
termination_by l => l.length
decreasing_by
  simp only [List.length_drop, List.length_cons]
  omega

/- ────────────────────────────────────────────────────────────────────
   Transformer for `a_speakers` (main.py lines 132-166), restricted to
   the scalar shape of its source documents.  `dateutil.parser.parse`
   is external data-dependent code, so `safe_date` takes the parse
   function `pd` as a parameter; the vocabulary map `rm` likewise.
   ──────────────────────────────────────────────────────────────────── -/

/-- `safe_date`: best-effort parse of a string, pass-through `None`. -/
def safe_date (pd : String → Option Nat) : Option String → Option Nat
  | none => none
  | some s => pd s

/-- Source document of the `a_speakers` collection; `oid` is
`str(doc["_id"])`, the always-present store primary key. -/
structure ASDoc where
  oid : String
  name : Option String
  job_title : Option String
  description : Option String
  full_bio : Option String
  location : Option String
  fee_range : Option String
  languages : Option String
  topics : Option (List String)
  keynotes : List String
  reviews : List String
  average_rating : Option Nat
  total_reviews : Option Nat
  image_url : Option String
  videos : Option String
  url : Option String
  scraped_at : Option String
deriving DecidableEq

/-- Provenance substructure. -/
structure SourceInfo where
  original_source : String
  source_url : Option String
  scraped_at : Option Nat
  source_id : Option String
deriving DecidableEq

/-- Canonical record produced by `unify_a_speakers`. -/
structure ASRec where
  _id : String
  name : Option String
  display_name : Option String
  job_title : Option String
  description : Option String
  biography : Option String
  tagline : Option String
  location : Option LocationS
  fee_range_live : Option String
  languages : Option (List String)
  topics : List String
  categories : List String
  topics_unmapped : List String
  keynotes : List String
  reviews : List String
  average_rating : Option Nat
  total_reviews : Option Nat
  profile_image : Option String
  videos : Option String
  source_info : SourceInfo
deriving DecidableEq

/-- `unify_a_speakers(doc)` (main.py lines 132-166). -/
def unify_a_speakers (pd : String → Option Nat) (rm : String → Option String)
    (doc : ASDoc) : ASRec :=
  let p := norm_topics rm (doc.topics.getD [])
  { _id := sha_id ("a_speakers|" ++ doc.oid),
    name := doc.name,
    display_name := doc.name,
    job_title := doc.job_title,
    description := doc.description,
    biography := doc.full_bio,
    tagline := none,
    location := parse_location doc.location,
    fee_range_live := doc.fee_range,
    languages := match doc.languages with
      | none => none
      | some l => if l = "" then none else some [l],
    topics := p.1,
    categories := p.1,
    topics_unmapped := p.2,
    keynotes := doc.keynotes,
    reviews := doc.reviews,
    average_rating := doc.average_rating,
    total_reviews := doc.total_reviews,
    profile_image := doc.image_url,
    videos := doc.videos,
    source_info := { original_source := "a_speakers",
                     source_url := doc.url,
                     scraped_at := safe_date pd doc.scraped_at,
                     source_id := some doc.oid } }

/- ────────────────────────────────────────────────────────────────────
   Transformer for `allamericanspeakers` (main.py lines 168-196) and
   the per-source loop of `run` (lines 462-487).  `doc["speaker_id"]`
   is a bracket access: a missing key raises `KeyError`, embedded as
   `Except.error`.  The loop in `run` wraps no transformer call in any
   try/except, so the error propagates.
   ──────────────────────────────────────────────────────────────────── -/

/-- An entry of `speaking_topics`, read as `t["title"]`. -/
structure STopic where
  title : String
deriving DecidableEq

/-- An entry of `images`, read as `i["type"]` and `i["url"]`. -/
structure AImage where
  itype : String
  iurl : String
deriving DecidableEq

/-- Source document of the `allamericanspeakers` collection;
`speaker_id := none` embeds a document lacking that key. -/
structure AADoc where
  speaker_id : Option String
  name : Option String
  job_title : Option String
  biography : Option String
  location : Option String
  fee_range : Option String
  categories : List String
  speaking_topics : List STopic
  images : List AImage
  videos : Option String
  rating : Option String
  reviews : Option String
  url : Option String
  scraped_at : Option String
deriving DecidableEq

/-- Canonical record produced by `unify_allamerican`. -/
structure AARec where
  _id : String
  name : Option String
  display_name : Option String
  job_title : Option String
  biography : Option String
  location : Option LocationS
  fee_ranges : Option String
  topics : List String
  categories : List String
  topics_unmapped : List String
  keynotes : List STopic
  profile_image : Option String
  videos : Option String
  ratings : Option String
  reviews : Option String
  source_info : SourceInfo
deriving DecidableEq

/-- `unify_allamerican(doc)` (main.py lines 168-196): raises
`KeyError` on `doc["speaker_id"]` when the key is absent. -/
def unify_allamerican (pd : String → Option Nat) (rm : String → Option String)
    (doc : AADoc) : Except String AARec :=
  match doc.speaker_id with
  | none => Except.error "KeyError: speaker_id"
  | some sid =>
    let p := norm_topics rm (doc.categories ++ doc.speaking_topics.map STopic.title)
    Except.ok
      { _id := sha_id ("allamerican|" ++ sid),
        name := doc.name,
        display_name := doc.name,
        job_title := doc.job_title,
        biography := doc.biography,
        location := parse_location doc.location,
        fee_ranges := doc.fee_range,
        topics := p.1,
        categories := p.1,
        topics_unmapped := p.2,
        keynotes := doc.speaking_topics,
        profile_image := (doc.images.filter (fun i => i.itype = "profile")).head?.map AImage.iurl,
        videos := doc.videos,
        ratings := doc.rating,
        reviews := doc.reviews,
        source_info := { original_source := "allamericanspeakers",
                         source_url := doc.url,
                         scraped_at := safe_date pd doc.scraped_at,
                         source_id := doc.speaker_id } }

/-- The transform step of the per-source loop of `run` over the
documents of the `allamericanspeakers` source: the loop has no
try/except, so a raised `KeyError` aborts the remaining documents. -/
def processAllamerican (pd : String → Option Nat) (rm : String → Option String) :
    List AADoc → Except String (List AARec)
  | [] => Except.ok []
  | d :: ds =>
    match unify_allamerican pd rm d with
    | Except.error e => Except.error e
    | Except.ok u =>
      match processAllamerican pd rm ds with
      | Except.error e => Except.error e
      | Except.ok rest => Except.ok (u :: rest)

/- ────────────────────────────────────────────────────────────────────
   Collection fallback of `run` (main.py lines 449-457).
   ──────────────────────────────────────────────────────────────────── -/

/-- `'speaker' in c.lower()`. -/
def hasSpeakerSub (c : String) : Bool :=
  subOf "speaker".toList (pyLower c).toList

/-- The collection `run` processes for a source whose database exists:
the configured one when present, else the first collection whose name
contains `speaker` case-insensitively, else none (source skipped). -/
def pickCollection (configured : String) (existing : List String) : Option String :=
  if configured ∈ existing then some configured
  else
    match existing.filter hasSpeakerSub with
    | [] => none
    | c :: _ => some c

/- ────────────────────────────────────────────────────────────────────
   Shared fixtures for the concrete witnesses.
   ──────────────────────────────────────────────────────────────────── -/

/-- Trivial date parser (no date parses). -/
def pd0 : String → Option Nat := fun _ => none

/-- Empty vocabulary reverse map. -/
def rm0 : String → Option String := fun _ => none

/-- A one-entry vocabulary reverse map. -/
def rmT : String → Option String :=
  fun t => if t = "AI" then some "Artificial Intelligence" else none

/-- An `allamericanspeakers` document lacking `speaker_id`. -/
def badDoc : AADoc :=
  ⟨none, some "No Id", none, none, none, none, [], [], [], none, none, none, none, none⟩

/-- A well-formed `allamericanspeakers` document. -/
def goodDoc : AADoc :=
  ⟨some "42", some "Good Speaker", none, none, none, none, [], [], [], none, none,
   none, none, none⟩

/- ────────────────────────────────────────────────────────────────────
   Shared helper lemmas.
   ──────────────────────────────────────────────────────────────────── -/

/-- A real (non-`None`) incoming name makes the scan accept the first
candidate: the self-similarity of the name is 100 and the city bonus is
non-negative, so the score beats the 90 threshold. -/
theorem lcsLen_self (l : List Char) : lcsLen l l = l.length := by
  induction l with
  | nil => simp [lcsLen]
  | cons a t ih => simp [lcsLen, ih]; omega

theorem fuzzRatio_self (s : String) : fuzzRatio s s = 100 := by
  unfold fuzzRatio
  by_cases h : s.length + s.length = 0
  · simp [h]
  · rw [if_neg h, lcsLen_self]
    have hl : (s.toList.length : ℚ) = (s.length : ℚ) := by
      norm_cast
    rw [hl]
    have hne : ((s.length : ℚ) + (s.length : ℚ)) ≠ 0 := by
      have : s.length ≠ 0 := by omega
      positivity
    field_simp
    ring

theorem scanCands_cons_named (s : String) (city : Option String)
    (cid : String) (ccity : Option String) (cs : List (String × Option String)) :
    scanCands (some s) city ((cid, ccity) :: cs) = some cid := by
  have hscore : (90 : ℚ) <
      fuzzRatioOpt (some s) (some s) + (if cityBonus ccity city then 10 else 0) := by
    have h100 : fuzzRatioOpt (some s) (some s) = 100 := fuzzRatio_self s
    rw [h100]
    split <;> norm_num
  simp [scanCands, hscore]

/- ────────────────────────────────────────────────────────────────────
   Claim theorems.
   ──────────────────────────────────────────────────────────────────── -/

/-- C1: for an incoming record whose name yields a non-empty
fingerprint, `find_duplicate` returns the id of the first candidate the
identity index holds under that exact fingerprint (the self-compared
similarity score always exceeds the 90 threshold, so the first
candidate short-circuits the scan), and returns no match when the index
holds no candidate under that fingerprint. -/
theorem find_duplicate_first_candidate (r : RRec)
    (idx : String → List (String × Option String))
    (hfp : fingerprint_name r.name ≠ "") :
    (idx (fingerprint_name r.name) = [] → find_duplicate r idx = none) ∧
    (∀ c cs, idx (fingerprint_name r.name) = c :: cs →
      find_duplicate r idx = some c.1) := by
  obtain ⟨s, hs⟩ : ∃ s, r.name = some s := by
    cases h : r.name with
    | none => exact absurd (by simp [fingerprint_name, h]) hfp
    | some s => exact ⟨s, rfl⟩
  constructor
  · intro h
    unfold find_duplicate
    rw [h]
    rfl
  · intro c cs h
    unfold find_duplicate
    rw [h, hs]
    obtain ⟨cid, ccity⟩ := c
    exact scanCands_cons_named s r.city cid ccity cs

/-- C1 witness: a two-candidate index under the fingerprint of
"Jane Doe"; the first candidate wins. -/
def idxEx : String → List (String × Option String) :=
  fun k => if k = "janedoe" then [("e1", none), ("e2", some "Austin")] else []

theorem find_duplicate_first_candidate_check :
    find_duplicate ⟨some "Jane Doe", none, "x1"⟩ idxEx = some "e1" :=
  (find_duplicate_first_candidate ⟨some "Jane Doe", none, "x1"⟩ idxEx
    (by decide)).2 ("e1", none) [("e2", some "Austin")] (by decide)

/-- C2: the id produced by the `a_speakers` transformer is a digest of
the source tag concatenated with the source-native identifier alone:
any two documents agreeing on `_id` receive the same canonical id,
whatever their other fields, and the id is `sha_id` of
`"a_speakers|" + str(doc["_id"])`. -/
theorem unify_a_speakers_id_pure (pd pd2 : String → Option Nat)
    (rm rm2 : String → Option String) (d1 d2 : ASDoc) (h : d1.oid = d2.oid) :
    (unify_a_speakers pd rm d1)._id = (unify_a_speakers pd2 rm2 d2)._id ∧
    (unify_a_speakers pd rm d1)._id = sha_id ("a_speakers|" ++ d1.oid) := by
  constructor
  · simp [unify_a_speakers, h]
  · rfl

/-- C2 witness: two documents with the same native id but different
name, topics, location and timestamp get the same canonical id. -/
def asDocA : ASDoc :=
  ⟨"5f1a", some "Alice Jones", none, none, none, some "Austin, TX, USA", none,
   none, some ["AI"], [], [], none, none, none, none, none, some "2025-01-01"⟩

def asDocB : ASDoc :=
  { asDocA with name := some "Bob Smith", topics := some ["Leadership"],
                location := some "Paris, France", scraped_at := none }

theorem unify_a_speakers_id_pure_check :
    (unify_a_speakers pd0 rm0 asDocA)._id = (unify_a_speakers pd0 rmT asDocB)._id :=
  (unify_a_speakers_id_pure pd0 pd0 rm0 rmT asDocA asDocB rfl).1

/-- C3 counterexample: a document lacking `speaker_id` does not get
skipped; the `KeyError` raised by `doc["speaker_id"]` aborts the whole
source, and the following well-formed document is never processed
(removing the bad document would have let processing succeed). -/
theorem missing_speaker_id_not_skipped :
    processAllamerican pd0 rm0 [badDoc, goodDoc] =
      Except.error "KeyError: speaker_id" ∧
    (processAllamerican pd0 rm0 [goodDoc]).isOk = true ∧
    (processAllamerican pd0 rm0 [badDoc, goodDoc]).isOk = false :=
  ⟨rfl, rfl, rfl⟩

/-- C3 amended: a source document lacking the native identifier raises
an uncaught `KeyError` in the transformer, aborting the processing of
that source (and so the run) with the remaining documents unprocessed;
the record is not skipped. -/
theorem missing_speaker_id_aborts (pd : String → Option Nat)
    (rm : String → Option String) (bad : AADoc) (rest : List AADoc)
    (h : bad.speaker_id = none) :
    processAllamerican pd rm (bad :: rest) = Except.error "KeyError: speaker_id" := by
  simp [processAllamerican, unify_allamerican, h]

theorem missing_speaker_id_aborts_check :
    processAllamerican pd0 rm0 [badDoc, goodDoc] =
      Except.error "KeyError: speaker_id" :=
  missing_speaker_id_aborts pd0 rm0 badDoc [goodDoc] rfl

/-- C4 counterexample: the two fingerprints differ, because the
honorific "Dr" is lowercased and kept, not stripped: only non-letters
are removed. -/
theorem fingerprint_dr_jane_ne :
    fingerprint_name (some ("Dr. Jane O" ++ String.mk [Char.ofNat 39] ++ "Neil")) ≠
      fingerprint_name (some "jane oneil") := by
  decide

/-- C4 amended: `fingerprint` retains only letters and lowercases
them, so "Dr. Jane O'Neil" normalizes to "drjaneoneil" while
"jane oneil" normalizes to "janeoneil"; the two differ (the honorific
is kept), though "Jane O'Neil" and "jane oneil" do normalize
identically. -/
theorem fingerprint_dr_jane_values :
    fingerprint_name (some ("Dr. Jane O" ++ String.mk [Char.ofNat 39] ++ "Neil")) =
      "drjaneoneil" ∧
    fingerprint_name (some "jane oneil") = "janeoneil" ∧
    fingerprint_name (some ("Jane O" ++ String.mk [Char.ofNat 39] ++ "Neil")) =
      fingerprint_name (some "jane oneil") := by
  refine ⟨by decide, by decide, by decide⟩

/-- C7: for free-text input, `parse_location` splits on commas and
strips each part; three parts become city/state/country, two parts
city/country with state unset, one part country alone; the original
string is always kept as `full_location`; empty or absent input yields
the empty structure. -/
theorem parse_location_spec (loc : String) (hne : loc ≠ "") :
    (∀ a b c, pySplitStrip loc = [a, b, c] →
      parse_location (some loc) = some ⟨some a, some b, some c, loc⟩) ∧
    (∀ a b, pySplitStrip loc = [a, b] →
      parse_location (some loc) = some ⟨some a, none, some b, loc⟩) ∧
    (∀ a, pySplitStrip loc = [a] →
      parse_location (some loc) = some ⟨none, none, some a, loc⟩) ∧
    (∀ l, parse_location (some loc) = some l → l.full_location = loc) ∧
    parse_location none = none ∧ parse_location (some "") = none := by
  refine ⟨?_, ?_, ?_, ?_, rfl, rfl⟩
  · intro a b c h
    simp [parse_location, hne, h]
  · intro a b h
    simp [parse_location, hne, h]
  · intro a h
    simp [parse_location, hne, h]
  · intro l h
    simp only [parse_location, if_neg hne] at h
    rcases e : pySplitStrip loc with _ | ⟨a, _ | ⟨b, _ | ⟨c, _ | ⟨d, rest⟩⟩⟩⟩ <;>
      rw [e] at h <;> injection h with h2 <;> subst h2 <;> rfl

theorem parse_location_spec_check :
    parse_location (some "Austin, TX, USA") =
      some ⟨some "Austin", some "TX", some "USA", "Austin, TX, USA"⟩ :=
  (parse_location_spec "Austin, TX, USA" (by decide)).1 "Austin" "TX" "USA" (by decide)

/-- C10: when a source database exists but the configured collection
name is absent, the source is not necessarily skipped: `run` processes
the first collection whose name contains the substring "speaker"
case-insensitively, and skips the source only when no collection name
contains it. -/
theorem pickCollection_fallback (configured : String) (existing : List String)
    (habs : configured ∉ existing) :
    pickCollection configured existing = (existing.filter hasSpeakerSub).head? ∧
    (pickCollection configured existing = none ↔
      ∀ c ∈ existing, hasSpeakerSub c = false) := by
  have h1 : pickCollection configured existing = (existing.filter hasSpeakerSub).head? := by
    unfold pickCollection
    rw [if_neg habs]
    rcases e : existing.filter hasSpeakerSub with _ | ⟨c, t⟩ <;> simp
  refine ⟨h1, ?_⟩
  rw [h1]
  rcases e : existing.filter hasSpeakerSub with _ | ⟨c, t⟩
  · simp only [List.head?_nil, true_iff]
    intro x hx
    by_contra hb
    have hx2 : x ∈ existing.filter hasSpeakerSub :=
      List.mem_filter.mpr ⟨hx, by simpa using hb⟩
    rw [e] at hx2
    cases hx2
  · simp only [List.head?_cons]
    constructor
    · intro hc
      exact absurd hc (Option.some_ne_none c)
    · intro hall
      have hcmem : c ∈ existing.filter hasSpeakerSub := by
        rw [e]
        exact List.mem_cons_self c t
      have h2 := List.mem_filter.mp hcmem
      rw [hall c h2.1] at h2
      exact absurd h2.2 (by simp)

theorem pickCollection_fallback_check :
    pickCollection "speakers" ["other", "my_speaker_data"] =
      (["other", "my_speaker_data"].filter hasSpeakerSub).head? :=
  (pickCollection_fallback "speakers" ["other", "my_speaker_data"] (by decide)).1

/- ────────────────────────────────────────────────────────────────────
   C9: the merge-update document.
   ──────────────────────────────────────────────────────────────────── -/

theorem lookup_cons_same (k : String) (b : α) (es : List (String × α)) :
    ((k, b) :: es).lookup k = some b := by
  rw [List.lookup_cons]
  rw [show (k == k) = true by simp]

theorem lookup_cons_diff (k a : String) (b : α) (es : List (String × α))
    (h : a ≠ k) :
    ((k, b) :: es).lookup a = es.lookup a := by
  rw [List.lookup_cons]
  rw [show (a == k) = false by simp [h]]

theorem lookup_filter_id_none (l : List (String × α)) :
    (l.filter (fun kv => kv.1 != "_id")).lookup "_id" = none := by
  induction l with
  | nil => rfl
  | cons kv t ih =>
    rcases kv with ⟨a, b⟩
    by_cases h : a = "_id"
    · subst h
      rw [List.filter_cons, show ((("_id", b).1 != "_id") = false) by simp]
      simpa using ih
    · rw [List.filter_cons, show (((a, b).1 != "_id") = true) by simp [h]]
      simp only [if_true]
      rw [lookup_cons_diff a "_id" b _ (fun he => h he.symm)]
      exact ih

theorem lookup_filter_id (l : List (String × α)) (k : String) (hk : k ≠ "_id") :
    (l.filter (fun kv => kv.1 != "_id")).lookup k = l.lookup k := by
  induction l with
  | nil => rfl
  | cons kv t ih =>
    rcases kv with ⟨a, b⟩
    by_cases h : a = "_id"
    · subst h
      rw [List.filter_cons, show ((("_id", b).1 != "_id") = false) by simp]
      simp only [if_neg Bool.false_ne_true]
      rw [lookup_cons_diff "_id" k b t hk]
      exact ih
    · rw [List.filter_cons, show (((a, b).1 != "_id") = true) by simp [h]]
      simp only [if_true]
      by_cases he : k = a
      · subst he
        rw [lookup_cons_same, lookup_cons_same]
      · rw [lookup_cons_diff a k b _ he, lookup_cons_diff a k b t he]
        exact ih

theorem lookup_dictSet_self (l : List (String × α)) (k : String) (v : α) :
    (dictSet l k v).lookup k = some v := by
  induction l with
  | nil =>
    rw [dictSet, show ((([] : List (String × α)).map Prod.fst).contains k = false) by rfl]
    simp only [Bool.false_eq_true, if_neg, List.nil_append]
    exact lookup_cons_same k v []
  | cons kv t ih =>
    rcases kv with ⟨a, b⟩
    by_cases h : a = k
    · rw [dictSet, show ((((a, b) :: t).map Prod.fst).contains k = true) by simp [h]]
      simp only [if_true, List.map_cons]
      rw [if_pos (show (a, b).1 = k from h)]
      exact lookup_cons_same k v _
    · rw [dictSet] at ih ⊢
      have hm : (((a, b) :: t).map Prod.fst).contains k = ((t.map Prod.fst).contains k) := by
        simp only [List.map_cons, List.contains_cons]
        rw [show (k == (a, b).1) = false by simp [Ne.symm h]]
        simp
      rw [hm]
      by_cases hc : (t.map Prod.fst).contains k
      · rw [if_pos hc] at ih ⊢
        simp only [List.map_cons]
        rw [if_neg h]
        rw [lookup_cons_diff a k b _ (Ne.symm h)]
        exact ih
      · rw [if_neg hc] at ih ⊢
        rw [List.cons_append]
        rw [lookup_cons_diff a k b _ (Ne.symm h)]
        exact ih

theorem lookup_dictSet_other (l : List (String × α)) (k k2 : String) (v : α)
    (h : k2 ≠ k) :
    (dictSet l k v).lookup k2 = l.lookup k2 := by
  rw [dictSet]
  by_cases hc : (l.map Prod.fst).contains k
  · rw [if_pos hc]
    clear hc
    induction l with
    | nil => rfl
    | cons kv t ih =>
      rcases kv with ⟨a, b⟩
      simp only [List.map_cons]
      by_cases he : a = k
      · rw [if_pos (by exact he)]
        subst he
        rw [lookup_cons_diff a k2 v _ h, lookup_cons_diff a k2 b t h]
        exact ih
      · rw [if_neg (by exact he)]
        by_cases h2 : k2 = a
        · subst h2
          rw [lookup_cons_same, lookup_cons_same]
        · rw [lookup_cons_diff a k2 b _ h2, lookup_cons_diff a k2 b t h2]
          exact ih
  · rw [if_neg hc]
    clear hc
    induction l with
    | nil =>
      simp only [List.nil_append]
      rw [lookup_cons_diff k k2 v [] h]
    | cons kv t ih =>
      rcases kv with ⟨a, b⟩
      rw [List.cons_append]
      by_cases h2 : k2 = a
      · subst h2
        rw [lookup_cons_same, lookup_cons_same]
      · rw [lookup_cons_diff a k2 b _ h2, lookup_cons_diff a k2 b t h2]
        exact ih

theorem lookup_applySet_skip (upd : List (String × α)) :
    ∀ (old : List (String × α)) (k : String), (∀ kv ∈ upd, kv.1 ≠ k) →
      (applySet old upd).lookup k = old.lookup k := by
  induction upd with
  | nil => intro old k _; rfl
  | cons kv t ih =>
    intro old k h
    have h1 : applySet old (kv :: t) = applySet (dictSet old kv.1 kv.2) t := rfl
    rw [h1, ih _ k (fun x hx => h x (List.mem_cons_of_mem kv hx))]
    exact lookup_dictSet_other old kv.1 k kv.2
      (fun he => h kv (List.mem_cons_self kv t) he.symm)

/-- C9: the update emitted for a MERGE carries every field of the new
record under the record's own value, with `updated_at` set to now,
while the record's own `_id` is excluded from the update document;
applying the `$set` to the stored entity therefore leaves the entity's
`_id` unchanged, and the operation's filter targets the existing
entity's id. -/
theorem mergeOp_fields (dupId : String) (d old : List (String × α)) (now : α) :
    (mergeOp dupId d now).1 = dupId ∧
    (mergeUpdateDoc d now).lookup "_id" = none ∧
    (mergeUpdateDoc d now).lookup "updated_at" = some now ∧
    (∀ k, k ≠ "_id" → k ≠ "updated_at" →
      (mergeUpdateDoc d now).lookup k = d.lookup k) ∧
    (applySet old (mergeUpdateDoc d now)).lookup "_id" = old.lookup "_id" := by
  refine ⟨rfl, lookup_filter_id_none _, ?_, ?_, ?_⟩
  · rw [mergeUpdateDoc, lookup_filter_id _ _ (by decide)]
    exact lookup_dictSet_self d "updated_at" now
  · intro k hk1 hk2
    rw [mergeUpdateDoc, lookup_filter_id _ _ hk1]
    exact lookup_dictSet_other d "updated_at" k now hk2
  · apply lookup_applySet_skip
    intro kv hkv
    have h2 := List.of_mem_filter hkv
    simpa using h2

/-- C9 witness: a concrete record with id and one payload field,
merged onto a stored entity with a different id. -/
theorem mergeOp_fields_check :
    (mergeOp "dup9" [("_id", 1), ("name", 2)] 99).1 = "dup9" ∧
    (mergeUpdateDoc [("_id", 1), ("name", 2)] 99).lookup "_id" = none ∧
    (mergeUpdateDoc [("_id", 1), ("name", 2)] 99).lookup "updated_at" = some 99 ∧
    (mergeUpdateDoc [("_id", 1), ("name", 2)] 99).lookup "name" =
      [("_id", 1), ("name", 2)].lookup "name" ∧
    (applySet [("_id", 7), ("name", 5)]
        (mergeUpdateDoc [("_id", 1), ("name", 2)] 99)).lookup "_id" =
      [("_id", 7), ("name", 5)].lookup "_id" := by
  have h := mergeOp_fields "dup9" [("_id", 1), ("name", 2)] [("_id", 7), ("name", 5)] 99
  exact ⟨h.1, h.2.1, h.2.2.1, h.2.2.2.1 "name" (by decide) (by decide), h.2.2.2.2⟩

/- ────────────────────────────────────────────────────────────────────
   C5: the batch writer.
   ──────────────────────────────────────────────────────────────────── -/

theorem chunk1000_cons (l : List α) (h : l ≠ []) :
    chunk1000 l = l.take 1000 :: chunk1000 (l.drop 1000) := by
  cases l with
  | nil => exact absurd rfl h
  | cons x xs => rw [chunk1000]

theorem chunk1000_short (l : List α) (h : l.length < 1000) :
    chunk1000 l = if l.isEmpty then [] else [l] := by
  cases e : l.isEmpty
  · have hne : l ≠ [] := by
      cases l
      · simp at e
      · simp
    rw [chunk1000_cons l hne, List.take_of_length_le (by omega),
        List.drop_of_length_le (by omega)]
    simp [chunk1000]
  · have : l = [] := by
      cases l
      · rfl
      · simp at e
    subst this
    simp [chunk1000]

theorem foldl_pushOp_chunk (ops : List α) :
    ∀ (buf : List α) (fls : List (List α)), buf.length < 1000 →
      finalFlush (ops.foldl pushOp (buf, fls)) = fls ++ chunk1000 (buf ++ ops) := by
  induction ops with
  | nil =>
    intro buf fls h
    simp only [List.foldl_nil, List.append_nil]
    rw [finalFlush, chunk1000_short buf h]
    cases e : buf.isEmpty
    · simp [e]
    · simp [e]
  | cons op ops ih =>
    intro buf fls h
    simp only [List.foldl_cons]
    by_cases hfull : 1000 ≤ (buf ++ [op]).length
    · have hb : (buf ++ [op]).length = 1000 := by
        simp only [List.length_append, List.length_cons, List.length_nil] at hfull ⊢
        omega
      rw [show pushOp (buf, fls) op = ([], fls ++ [buf ++ [op]]) by
        rw [pushOp]
        simp only [hfull, if_pos]]
      rw [ih [] (fls ++ [buf ++ [op]]) (by simp)]
      have hjoin : buf ++ op :: ops = (buf ++ [op]) ++ ops := by simp
      rw [hjoin, chunk1000_cons ((buf ++ [op]) ++ ops) (by simp),
          List.take_left' hb, List.drop_left' hb]
      simp
    · rw [show pushOp (buf, fls) op = (buf ++ [op], fls) by
        rw [pushOp]
        simp only [hfull, if_neg, ite_false]]
      rw [ih (buf ++ [op]) fls (by omega)]
      simp

/-- C5 counterexample: two one-record sources.  The code flushes once,
at the end, with both ops in one batch; the claimed per-source
remainder flush would have produced two one-op batches. -/
theorem no_per_source_flush_concrete :
    runFlushes [[1], [2]] = [[1, 2]] ∧
    runFlushesSpec ([[1], [2]] : List (List Nat)) = [[1], [2]] ∧
    runFlushes [[1], [2]] ≠ runFlushesSpec ([[1], [2]] : List (List Nat)) := by
  refine ⟨by decide, by decide, by decide⟩

/-- C5 amended: the buffer is shared across sources; a flush happens
exactly each time the buffer reaches 1000 operations, and one final
flush writes any non-empty remainder after all sources are exhausted.
There is no per-source remainder flush, so the flushed batches are
precisely the 1000-sized chunks of the concatenated op stream with a
final partial chunk. -/
theorem runFlushes_eq_chunk1000 (srcs : List (List α)) :
    runFlushes srcs = chunk1000 srcs.flatten := by
  rw [runFlushes, show srcs.foldl (fun st src => src.foldl pushOp st) ([], []) =
        srcs.flatten.foldl pushOp ([], []) from (List.foldl_flatten pushOp ([], []) srcs).symm,
      foldl_pushOp_chunk srcs.flatten [] [] (by simp)]
  simp

/- ────────────────────────────────────────────────────────────────────
   C8: in-run index update and merge against the inserted entity.
   ──────────────────────────────────────────────────────────────────── -/

/-- Once the candidate list under a fingerprint starts with an entry,
every later step of the run keeps that entry first: merges leave the
index untouched and inserts only append. -/
theorem runRecs_idx_head (key : String) (p : String × Option String) :
    ∀ (rs : List RRec) (st : RunSt) (tl : List (String × Option String)),
      st.idx key = p :: tl →
      ∃ tl2, (runRecs st rs).idx key = p :: tl2 := by
  intro rs
  induction rs with
  | nil => intro st tl h; exact ⟨tl, h⟩
  | cons r rs ih =>
    intro st tl h
    show ∃ tl2, (runRecs (stepRec st r) rs).idx key = p :: tl2
    cases hd : find_duplicate r st.idx with
    | some d =>
      apply ih (stepRec st r) tl
      rw [stepRec, hd]
      exact h
    | none =>
      by_cases hk : key = fingerprint_name r.name
      · apply ih (stepRec st r) (tl ++ [(r.rid, r.city)])
        rw [stepRec, hd]
        simp only [hk, if_pos]
        rw [← hk, h]
        rfl
      · apply ih (stepRec st r) tl
        rw [stepRec, hd]
        simp only []
        rw [if_neg hk]
        exact h

/-- A named (non-`None`) record that resolves to INSERT must have had
an empty candidate list: with any candidate present the self-compared
score would have exceeded the threshold. -/
theorem insert_named_empty_cands (st : RunSt) (r : RRec) (s : String)
    (hn : r.name = some s) (hins : find_duplicate r st.idx = none) :
    st.idx (fingerprint_name r.name) = [] := by
  cases hc : st.idx (fingerprint_name r.name) with
  | nil => rfl
  | cons c cs =>
    exfalso
    rw [find_duplicate, hc, hn] at hins
    obtain ⟨cid, ccity⟩ := c
    rw [scanCands_cons_named s r.city cid ccity cs] at hins
    cases hins

/-- C8 counterexample: two records with no name at all.  The first
resolves to INSERT and its `(id, city)` pair is appended under the
(empty) fingerprint immediately, but the second record — whose name
has the same fingerprint — still resolves to INSERT, because the
self-similarity of a missing name scores 0, not above 90. -/
theorem noneName_reinserts :
    find_duplicate ⟨none, none, "i1"⟩ (fun _ => []) = none ∧
    fingerprint_name (⟨none, none, "i2"⟩ : RRec).name =
      fingerprint_name (⟨none, none, "i1"⟩ : RRec).name ∧
    (stepRec ⟨fun _ => [], []⟩ ⟨none, none, "i1"⟩).idx "" = [("i1", none)] ∧
    find_duplicate ⟨none, none, "i2"⟩
      (stepRec ⟨fun _ => [], []⟩ ⟨none, none, "i1"⟩).idx = none ∧
    (runRecs ⟨fun _ => [], []⟩ [⟨none, none, "i1"⟩, ⟨none, none, "i2"⟩]).ops =
      [ROp.insertNew ⟨none, none, "i1"⟩, ROp.insertNew ⟨none, none, "i2"⟩] := by
  have h1 : find_duplicate ⟨none, none, "i1"⟩ (fun _ => []) = none := by decide
  have h3 : (stepRec ⟨fun _ => [], []⟩ ⟨none, none, "i1"⟩).idx "" = [("i1", none)] := by
    decide
  have hsc : ¬((90 : ℚ) <
      fuzzRatioOpt none none + (if cityBonus none none then 10 else 0)) := by
    norm_num [fuzzRatioOpt, cityBonus]
  have h4 : find_duplicate ⟨none, none, "i2"⟩
      (stepRec ⟨fun _ => [], []⟩ ⟨none, none, "i1"⟩).idx = none := by
    rw [find_duplicate,
      show fingerprint_name (⟨none, none, "i2"⟩ : RRec).name = "" from rfl, h3]
    simp [scanCands, hsc]
  have h5 : (runRecs ⟨fun _ => [], []⟩ [⟨none, none, "i1"⟩, ⟨none, none, "i2"⟩]).ops =
      [ROp.insertNew ⟨none, none, "i1"⟩, ROp.insertNew ⟨none, none, "i2"⟩] := by
    show (stepRec (stepRec ⟨fun _ => [], []⟩ ⟨none, none, "i1"⟩) ⟨none, none, "i2"⟩).ops = _
    rw [stepRec, h4]
    simp only []
    rw [show (stepRec ⟨fun _ => [], []⟩ ⟨none, none, "i1"⟩).ops =
          [ROp.insertNew ⟨none, none, "i1"⟩] from by decide]
    rfl
  exact ⟨h1, rfl, h3, h4, h5⟩

/-- C8 amended: for records that carry a name, the claim holds: a
record resolved to INSERT has its `(id, city)` pair appended under its
name fingerprint immediately, and any later named record of the same
run whose name has the same fingerprint resolves to MERGE against that
just-inserted entity.  Records whose name is `None` score 0 against
themselves and are re-inserted instead. -/
theorem insert_then_merge (st : RunSt) (r : RRec) (mid : List RRec) (r2 : RRec)
    (s s2 : String) (hn : r.name = some s) (hn2 : r2.name = some s2)
    (hins : find_duplicate r st.idx = none)
    (hfp : fingerprint_name r2.name = fingerprint_name r.name) :
    (stepRec st r).idx (fingerprint_name r.name) = [(r.rid, r.city)] ∧
    find_duplicate r2 (runRecs (stepRec st r) mid).idx = some r.rid ∧
    (stepRec (runRecs (stepRec st r) mid) r2).ops =
      (runRecs (stepRec st r) mid).ops ++ [ROp.merge r.rid r2] := by
  have hempty := insert_named_empty_cands st r s hn hins
  have hstep : (stepRec st r).idx (fingerprint_name r.name) = [(r.rid, r.city)] := by
    rw [stepRec, hins]
    simp [hempty]
  obtain ⟨tl2, htl2⟩ := runRecs_idx_head (fingerprint_name r.name) (r.rid, r.city)
    mid (stepRec st r) [] hstep
  have hfind : find_duplicate r2 (runRecs (stepRec st r) mid).idx = some r.rid := by
    rw [find_duplicate, hfp, htl2, hn2]
    exact scanCands_cons_named s2 r2.city r.rid r.city tl2
  refine ⟨hstep, hfind, ?_⟩
  rw [stepRec, hfind]

/-- C8 witness: "Jane Doe" from source A inserts into an empty run;
"Jane Doe" from source B later in the same run merges against it. -/
theorem insert_then_merge_check :
    (stepRec ⟨fun _ => [], []⟩ ⟨some "Jane Doe", some "Austin", "a1"⟩).idx
      (fingerprint_name (⟨some "Jane Doe", some "Austin", "a1"⟩ : RRec).name) =
      [("a1", some "Austin")] ∧
    find_duplicate ⟨some "Jane Doe", some "Austin", "b1"⟩
      (runRecs (stepRec ⟨fun _ => [], []⟩ ⟨some "Jane Doe", some "Austin", "a1"⟩)
        [⟨some "John Smith", none, "c1"⟩]).idx = some "a1" :=
  ⟨(insert_then_merge ⟨fun _ => [], []⟩ ⟨some "Jane Doe", some "Austin", "a1"⟩
      [⟨some "John Smith", none, "c1"⟩] ⟨some "Jane Doe", some "Austin", "b1"⟩
      "Jane Doe" "Jane Doe" rfl rfl (by decide) rfl).1,
   (insert_then_merge ⟨fun _ => [], []⟩ ⟨some "Jane Doe", some "Austin", "a1"⟩
      [⟨some "John Smith", none, "c1"⟩] ⟨some "Jane Doe", some "Austin", "b1"⟩
      "Jane Doe" "Jane Doe" rfl rfl (by decide) rfl).2.1⟩

/- ────────────────────────────────────────────────────────────────────
   C6: topic conservation and determinism of `norm_topics`.
   ──────────────────────────────────────────────────────────────────── -/

theorem mem_insertSet_self (l : List String) (x : String) : x ∈ insertSet l x := by
  rw [insertSet]
  split
  · assumption
  · simp

theorem mem_insertSet_of_mem (l : List String) (x y : String) (h : y ∈ l) :
    y ∈ insertSet l x := by
  rw [insertSet]
  split
  · exact h
  · simp [h]

theorem mem_insertSet_elim (l : List String) (x y : String)
    (h : y ∈ insertSet l x) : y ∈ l ∨ y = x := by
  rw [insertSet] at h
  by_cases hx : x ∈ l
  · rw [if_pos hx] at h
    exact Or.inl h
  · rw [if_neg hx] at h
    simpa using h

theorem insertSet_nodup (l : List String) (x : String) (h : l.Nodup) :
    (insertSet l x).Nodup := by
  rw [insertSet]
  by_cases hx : x ∈ l
  · rw [if_pos hx]
    exact h
  · rw [if_neg hx]
    refine h.append (List.nodup_singleton x) ?_
    intro a ha hb
    rw [List.mem_singleton] at hb
    subst hb
    exact hx ha

theorem foldl_normStep_mem1 (rm : String → Option String) (ts : List String) :
    ∀ (acc : List String × List String) (y : String), y ∈ acc.1 →
      y ∈ (ts.foldl (normStep rm) acc).1 := by
  induction ts with
  | nil => intro acc y h; exact h
  | cons t ts ih =>
    intro acc y h
    simp only [List.foldl_cons]
    apply ih
    rw [normStep]
    cases rm (cleanTopic t) <;> exact mem_insertSet_of_mem _ _ _ h

theorem foldl_normStep_mem2 (rm : String → Option String) (ts : List String) :
    ∀ (acc : List String × List String) (y : String), y ∈ acc.2 →
      y ∈ (ts.foldl (normStep rm) acc).2 := by
  induction ts with
  | nil => intro acc y h; exact h
  | cons t ts ih =>
    intro acc y h
    simp only [List.foldl_cons]
    apply ih
    rw [normStep]
    cases rm (cleanTopic t)
    · exact mem_insertSet_of_mem _ _ _ h
    · exact h

theorem foldl_normStep_covers (rm : String → Option String) (ts : List String) :
    ∀ (acc : List String × List String), ∀ t ∈ ts,
      mappedForm rm t ∈ (ts.foldl (normStep rm) acc).1 := by
  induction ts with
  | nil => intro _ t h; cases h
  | cons t0 ts ih =>
    intro acc t ht
    rcases List.mem_cons.mp ht with rfl | h
    · simp only [List.foldl_cons]
      apply foldl_normStep_mem1
      rw [normStep, mappedForm]
      cases hm : rm (cleanTopic t) <;> exact mem_insertSet_self _ _
    · exact ih _ t h

theorem foldl_normStep_unmapped (rm : String → Option String) (ts : List String) :
    ∀ (acc : List String × List String), ∀ t ∈ ts, rm (cleanTopic t) = none →
      cleanTopic t ∈ (ts.foldl (normStep rm) acc).2 := by
  induction ts with
  | nil => intro _ t h; cases h
  | cons t0 ts ih =>
    intro acc t ht hm
    rcases List.mem_cons.mp ht with rfl | h
    · simp only [List.foldl_cons]
      apply foldl_normStep_mem2
      rw [normStep, hm]
      exact mem_insertSet_self _ _
    · exact ih _ t h hm

theorem foldl_normStep_sub (rm : String → Option String) (ts : List String) :
    ∀ (acc : List String × List String), (∀ y ∈ acc.2, y ∈ acc.1) →
      ∀ y ∈ (ts.foldl (normStep rm) acc).2, y ∈ (ts.foldl (normStep rm) acc).1 := by
  induction ts with
  | nil => intro acc h; exact h
  | cons t ts ih =>
    intro acc h
    simp only [List.foldl_cons]
    apply ih
    intro y hy
    rw [normStep] at hy ⊢
    cases hm : rm (cleanTopic t) with
    | none =>
      rw [hm] at hy
      rcases mem_insertSet_elim _ _ _ hy with h2 | h2
      · exact mem_insertSet_of_mem _ _ _ (h y h2)
      · rw [h2]
        exact mem_insertSet_self _ _
    | some c =>
      rw [hm] at hy
      exact mem_insertSet_of_mem _ _ _ (h y hy)

theorem foldl_normStep_nodup (rm : String → Option String) (ts : List String) :
    ∀ (acc : List String × List String), acc.1.Nodup → acc.2.Nodup →
      (ts.foldl (normStep rm) acc).1.Nodup ∧ (ts.foldl (normStep rm) acc).2.Nodup := by
  induction ts with
  | nil => intro acc h1 h2; exact ⟨h1, h2⟩
  | cons t ts ih =>
    intro acc h1 h2
    simp only [List.foldl_cons]
    apply ih
    · rw [normStep]
      cases rm (cleanTopic t) <;> exact insertSet_nodup _ _ h1
    · rw [normStep]
      cases rm (cleanTopic t)
      · exact insertSet_nodup _ _ h2
      · exact h2

/-- C6: every raw topic lands in the canonical list, under its
vocabulary image when mapped and under its cleaned form otherwise;
every cleaned topic absent from the vocabulary lands in both lists;
the unmapped list is contained in the canonical list; and both result
lists are duplicate-free and sorted lexicographically. -/
theorem norm_topics_conservation (rm : String → Option String) (topics : List String) :
    (∀ t ∈ topics, mappedForm rm t ∈ (norm_topics rm topics).1) ∧
    (∀ t ∈ topics, rm (cleanTopic t) = none →
      cleanTopic t ∈ (norm_topics rm topics).1 ∧
      cleanTopic t ∈ (norm_topics rm topics).2) ∧
    (∀ u ∈ (norm_topics rm topics).2, u ∈ (norm_topics rm topics).1) ∧
    ((norm_topics rm topics).1.Nodup ∧ (norm_topics rm topics).2.Nodup) ∧
    ((norm_topics rm topics).1.Sorted (· ≤ ·) ∧
     (norm_topics rm topics).2.Sorted (· ≤ ·)) := by
  have hm1 : ∀ y, y ∈ (topics.foldl (normStep rm) ([], [])).1 ↔
      y ∈ (norm_topics rm topics).1 := by
    intro y
    rw [norm_topics]
    exact (List.mem_insertionSort (· ≤ ·)).symm
  have hm2 : ∀ y, y ∈ (topics.foldl (normStep rm) ([], [])).2 ↔
      y ∈ (norm_topics rm topics).2 := by
    intro y
    rw [norm_topics]
    exact (List.mem_insertionSort (· ≤ ·)).symm
  refine ⟨?_, ?_, ?_, ?_, ?_, ?_⟩
  · intro t ht
    exact (hm1 _).mp (foldl_normStep_covers rm topics ([], []) t ht)
  · intro t ht hmap
    have hu := foldl_normStep_unmapped rm topics ([], []) t ht hmap
    refine ⟨(hm1 _).mp ?_, (hm2 _).mp hu⟩
    exact foldl_normStep_sub rm topics ([], []) (by intro y hy; cases hy) _ hu
  · intro u hu
    exact (hm1 _).mp (foldl_normStep_sub rm topics ([], [])
      (by intro y hy; cases hy) u ((hm2 _).mpr hu))
  · have hn := foldl_normStep_nodup rm topics ([], []) List.nodup_nil List.nodup_nil
    constructor
    · rw [norm_topics]
      exact ((List.perm_insertionSort (· ≤ ·) _).nodup_iff).mpr hn.1
    · rw [norm_topics]
      exact ((List.perm_insertionSort (· ≤ ·) _).nodup_iff).mpr hn.2
  · rw [norm_topics]
    exact List.sorted_insertionSort (· ≤ ·) _
  · rw [norm_topics]
    exact List.sorted_insertionSort (· ≤ ·) _

/-- C6 witness: one mapped topic and one unmapped topic with internal
whitespace. -/
theorem norm_topics_conservation_check :
    mappedForm rmT "  AI " ∈ (norm_topics rmT ["  AI ", "Basket   Weaving"]).1 ∧
    cleanTopic "Basket   Weaving" ∈ (norm_topics rmT ["  AI ", "Basket   Weaving"]).1 ∧
    cleanTopic "Basket   Weaving" ∈ (norm_topics rmT ["  AI ", "Basket   Weaving"]).2 ∧
    (norm_topics rmT ["  AI ", "Basket   Weaving"]).1.Nodup ∧
    (norm_topics rmT ["  AI ", "Basket   Weaving"]).1.Sorted (· ≤ ·) := by
  have h := norm_topics_conservation rmT ["  AI ", "Basket   Weaving"]
  have hB := h.2.1 "Basket   Weaving" (by decide) (by decide)
  exact ⟨h.1 "  AI " (by decide), hB.1, hB.2, h.2.2.2.1.1, h.2.2.2.2.1⟩
